import Mathlib

/-!
Verification of `scraper.py`, a one-shot blog export tool: it walks a
paginated syndication feed, and for each post renders an `index.md` (and,
when comments exist, a `comments.md`) into `<output_root>/<year>/<folder>/`.

Shallow embedding notes:
* External collaborators (`feedparser`, `markdownify`, `slugify`,
  `datetime.fromisoformat`) are black boxes per the design; they are passed
  in as explicit function parameters (collected in `Env`), so every theorem
  quantifies over their behaviour unless the contract requires otherwise.
* The network is an oracle: `fetch_all_posts` consumes the sequence of feed
  pages the feed would serve, and comment feeds are a function from URL to
  a parse result.
* The filesystem is an explicit state `FS` (created directories plus an
  association list of written files; a later write shadows an earlier one,
  mirroring `open(path, "w")` overwrite semantics).
* `time.sleep` is modelled by counting delays.
-/

/-- One pagination link of a parsed feed (`feed.feed["links"]` element):
a dictionary that may carry `rel` and `href` keys. -/
structure FeedLink where
  rel : Option String
  href : Option String
deriving Repr, DecidableEq

/-- A parsed feed page as returned by `feedparser.parse`: the bozo flag,
the entry list, and the page-level pagination links. -/
structure FeedPage (α : Type) where
  bozo : Bool
  entries : List α
  links : List FeedLink
deriving Repr, DecidableEq

/-- Python truthiness of an optional string (`None` and `""` are falsy). -/
def strTruthy (o : Option String) : Bool :=
  match o with
  | none => false
  | some s => s ≠ ""

/-- From `url = None; for link in feed.feed.get("links", []): if link.get("rel") == "next":
url = link.get("href"); break` — the first link whose relation is `"next"`
determines the next URL (its possibly-missing `href`). -/
def findNextUrl (links : List FeedLink) : Option String :=
  match links.find? (fun l => l.rel = some "next") with
  | none => none
  | some l => l.href

/-- The `while url:` loop body of `fetch_all_posts`, consuming the pages the
feed serves in order.  Accumulates entries and counts the `time.sleep`
delays taken before each subsequent fetch.  Breaks when a page is bozo with
zero entries; ends when no truthy next link is present. -/
def fetchLoop {α : Type} : List (FeedPage α) → List α → Nat → List α × Nat
  | [], posts, sleeps => (posts, sleeps)
  | page :: rest, posts, sleeps =>
    if page.bozo && page.entries.isEmpty then
      (posts, sleeps)
    else
      let posts := posts ++ page.entries
      let url := findNextUrl page.links
      if strTruthy url then
        fetchLoop rest posts (sleeps + 1)
      else
        (posts, sleeps)

/-- Model of `fetch_all_posts()` over the sequence of pages the feed serves:
returns the accumulated entries and the number of inter-page delays. -/
def fetch_all_posts {α : Type} (pages : List (FeedPage α)) : List α × Nat :=
  fetchLoop pages [] 0

/-- A well-formed page chain: every page before the last succeeds (not bozo
with zero entries) and carries a truthy next link; the last page succeeds
and carries none. -/
def chainOk {α : Type} : List (FeedPage α) → Bool
  | [] => true
  | [p] => !(p.bozo && p.entries.isEmpty) && !(strTruthy (findNextUrl p.links))
  | p :: rest => !(p.bozo && p.entries.isEmpty) && strTruthy (findNextUrl p.links) &&
      chainOk rest

/-- Pages that all succeed and all carry a truthy next link (a prefix of a
feed that aborts later). -/
def chainNextOk {α : Type} (pages : List (FeedPage α)) : Bool :=
  pages.all (fun p => !(p.bozo && p.entries.isEmpty) && strTruthy (findNextUrl p.links))

theorem fetchLoop_cons {α : Type} (p : FeedPage α) (rest : List (FeedPage α))
    (acc : List α) (n : Nat) :
    fetchLoop (p :: rest) acc n =
      if p.bozo && p.entries.isEmpty then (acc, n)
      else if strTruthy (findNextUrl p.links) then
        fetchLoop rest (acc ++ p.entries) (n + 1)
      else (acc ++ p.entries, n) := rfl

theorem fetchLoop_step {α : Type} {p : FeedPage α} (rest : List (FeedPage α))
    (acc : List α) (n : Nat) (h1 : (p.bozo && p.entries.isEmpty) = false)
    (h2 : strTruthy (findNextUrl p.links) = true) :
    fetchLoop (p :: rest) acc n = fetchLoop rest (acc ++ p.entries) (n + 1) := by
  rw [fetchLoop_cons, h1, h2]
  simp

theorem fetchLoop_chainOk {α : Type} (pages : List (FeedPage α)) (hne : pages ≠ [])
    (h : chainOk pages = true) : ∀ acc n,
    fetchLoop pages acc n = (acc ++ (pages.map (·.entries)).flatten, n + pages.length - 1) := by
  induction pages with
  | nil => cases hne rfl
  | cons p rest ih =>
    intro acc n
    cases rest with
    | nil =>
      simp only [chainOk, Bool.and_eq_true, Bool.not_eq_true'] at h
      rw [fetchLoop_cons, h.1, h.2]
      simp
    | cons q rest' =>
      simp only [chainOk, Bool.and_eq_true, Bool.not_eq_true'] at h
      obtain ⟨⟨h1, h2⟩, h3⟩ := h
      rw [fetchLoop_step (q :: rest') acc n h1 h2, ih (by simp) h3 (acc ++ p.entries) (n + 1)]
      refine Prod.ext ?_ ?_
      · simp
      · simp only [List.length_cons]
        omega

theorem fetchLoop_abort {α : Type} (good : List (FeedPage α)) (bad : FeedPage α)
    (rest : List (FeedPage α)) (hg : chainNextOk good = true)
    (hb : bad.bozo = true) (he : bad.entries = []) : ∀ acc n,
    fetchLoop (good ++ bad :: rest) acc n =
      (acc ++ (good.map (·.entries)).flatten, n + good.length) := by
  induction good with
  | nil =>
    intro acc n
    rw [List.nil_append, fetchLoop_cons, hb, he]
    simp
  | cons p ps ih =>
    intro acc n
    simp only [chainNextOk, List.all_cons, Bool.and_eq_true, Bool.not_eq_true'] at hg
    obtain ⟨⟨h1, h2⟩, hps⟩ := hg
    rw [List.cons_append, fetchLoop_step (ps ++ bad :: rest) acc n h1 h2,
      ih (by simpa [chainNextOk] using hps) (acc ++ p.entries) (n + 1)]
    refine Prod.ext ?_ ?_
    · simp
    · simp only [List.length_cons]; omega

/-- C1: the Pagination Walker returns the concatenation of the entries of
every fetched page in original order; on a well-formed N-page chain it
terminates when a page has no "next" link, performing exactly N-1 delays;
when a fetch is bozo with zero entries it stops and returns the entries
accumulated so far. -/
theorem pagination_walker_correct {α : Type} :
    (∀ pages : List (FeedPage α), chainOk pages = true →
      fetch_all_posts pages = ((pages.map (·.entries)).flatten, pages.length - 1)) ∧
    (∀ (good : List (FeedPage α)) (bad : FeedPage α) (rest : List (FeedPage α)),
      chainNextOk good = true → bad.bozo = true → bad.entries = [] →
      fetch_all_posts (good ++ bad :: rest) = ((good.map (·.entries)).flatten, good.length)) := by
  constructor
  · intro pages h
    cases pages with
    | nil => simp [fetch_all_posts, fetchLoop]
    | cons p rest =>
      have := fetchLoop_chainOk (p :: rest) (by simp) h [] 0
      simpa [fetch_all_posts] using this
  · intro good bad rest hg hb he
    have := fetchLoop_abort good bad rest hg hb he [] 0
    simpa [fetch_all_posts] using this

/-- A synthetic 3-page feed with pages of sizes 25/25/10 and "next" links on
pages 1–2 only. -/
def c1Pages : List (FeedPage Nat) :=
  [ ⟨false, List.range 25, [⟨some "next", some "page2"⟩]⟩,
    ⟨false, (List.range 25).map (25 + ·), [⟨some "next", some "page3"⟩]⟩,
    ⟨false, (List.range 10).map (50 + ·), []⟩ ]

/-- C1 witness: on the synthetic 3-page 25/25/10 feed the walker returns
exactly 60 entries in original order with exactly 2 delays; and an aborting
feed (one good page, then a bozo page with zero entries) returns the first
page's entries with 1 delay. -/
theorem pagination_walker_correct_witness :
    fetch_all_posts c1Pages = (List.range 60, 2) ∧
    fetch_all_posts ((⟨false, [7, 8], [⟨some "next", some "p2"⟩]⟩ : FeedPage Nat) ::
      [⟨true, [], []⟩]) = ([7, 8], 1) := by
  constructor
  · have h := (pagination_walker_correct (α := Nat)).1 c1Pages (by decide)
    rw [h]
    decide
  · have h := (pagination_walker_correct (α := Nat)).2
      [⟨false, [7, 8], [⟨some "next", some "p2"⟩]⟩] ⟨true, [], []⟩ [] (by decide) rfl rfl
    simpa using h

/-! ## Timestamps and `strftime` renderings -/

/-- A parsed timestamp (`datetime` object); only the fields the scraper's
`strftime` calls consume. -/
structure DateTime where
  year : Nat
  month : Nat
  day : Nat
  hour : Nat
  minute : Nat
deriving Repr, DecidableEq

/-- Zero-pad to two digits (`%m`, `%d`, `%H`, `%M`). -/
def pad2 (n : Nat) : String :=
  if n < 10 then "0" ++ toString n else toString n

/-- Zero-pad to four digits (`%Y`). -/
def pad4 (n : Nat) : String :=
  if n < 10 then "000" ++ toString n
  else if n < 100 then "00" ++ toString n
  else if n < 1000 then "0" ++ toString n
  else toString n

/-- Rendering `dt.strftime("%Y-%m-%d-%H-%M")` — the folder-name date prefix. -/
def strftimeFolderPrefix (dt : DateTime) : String :=
  pad4 dt.year ++ "-" ++ pad2 dt.month ++ "-" ++ pad2 dt.day ++ "-" ++
    pad2 dt.hour ++ "-" ++ pad2 dt.minute

/-- Rendering `dt.strftime("%Y")` — the year partition. -/
def strftimeYear (dt : DateTime) : String := pad4 dt.year

/-- Rendering `dt.strftime("%Y-%m-%d %H:%M")` — the comment subheading date. -/
def strftimeCommentDate (dt : DateTime) : String :=
  pad4 dt.year ++ "-" ++ pad2 dt.month ++ "-" ++ pad2 dt.day ++ " " ++
    pad2 dt.hour ++ ":" ++ pad2 dt.minute

/-! ## Python string primitives

`str.strip()` and `str.replace()` are modelled on the character list so
they compute by structural recursion. -/

/-- Python `s.strip()`: remove leading and trailing whitespace. -/
def pyStrip (s : String) : String :=
  String.mk (((s.data.dropWhile Char.isWhitespace).reverse.dropWhile
    Char.isWhitespace).reverse)

/-- Scan for `s.replace(pat, repl)`: a positive skip counter consumes the
tail of an already-matched pattern occurrence. -/
def replaceAux (pat repl : List Char) : List Char → Nat → List Char
  | [], _ => []
  | _ :: cs, k + 1 => replaceAux pat repl cs k
  | c :: cs, 0 =>
    if pat.isPrefixOf (c :: cs) then
      repl ++ replaceAux pat repl cs (pat.length - 1)
    else
      c :: replaceAux pat repl cs 0

/-- Python `s.replace(pat, repl)`: replace every (non-overlapping,
leftmost-first) occurrence. -/
def pyReplace (s pat repl : String) : String :=
  String.mk (replaceAux pat.data repl.data s.data 0)

/-! ## Entries and the external-collaborator environment -/

/-- One element of a feedparser `content` list: a dict that may carry a
`value` key. -/
structure ContentBlock where
  value : Option String
deriving Repr, DecidableEq

/-- A feed entry (post or comment).  `none` models an absent dictionary key;
`author_name` is the `name` key of `author_detail`. -/
structure Entry where
  id : Option String := none
  title : Option String := none
  published : Option String := none
  content : Option (List ContentBlock) := none
  summary : Option String := none
  author_name : Option String := none
deriving Repr, DecidableEq

/-- The black-box external collaborators, passed explicitly:
`md` is `markdownify(_, heading_style="ATX", strip=["script","style"])`,
`fromiso` is `datetime.fromisoformat` (raising = `none`),
`slug` is `slugify(_, max_length=50)`, and
`commentFeed` is `feedparser.parse` on a comment-feed URL (an exception in
the `try` block = `.error`). -/
structure Env where
  md : String → String
  fromiso : String → Option DateTime
  slug : String → String
  commentFeed : String → Except String (FeedPage Entry)

/-- Model of `parse_datetime`: replace `"Z"` with `"+00:00"` and parse; a
`ValueError`/`AttributeError` yields `None`. -/
def parse_datetime (fromiso : String → Option DateTime) (date_string : String) :
    Option DateTime :=
  fromiso (pyReplace date_string "Z" "+00:00")

/-- Model of `generate_folder_name(dt, title)`. -/
def generate_folder_name (slug : String → String) (dt : DateTime) (title : String) :
    String :=
  let datePre := strftimeFolderPrefix dt
  if title ≠ "" ∧ pyStrip title ≠ "" then
    datePre ++ "-" ++ slug title
  else
    datePre

/-- Model of `html_to_markdown(html_content)`: empty (falsy) input yields `""`,
otherwise the converter runs. -/
def html_to_markdown (md : String → String) (html_content : String) : String :=
  if html_content = "" then "" else md html_content

/-- Model of `format_comment_date(date_string)`: formatted when parseable, the raw
string otherwise. -/
def format_comment_date (fromiso : String → Option DateTime) (date_string : String) :
    String :=
  match parse_datetime fromiso date_string with
  | some dt => strftimeCommentDate dt
  | none => date_string

/-- Search of `re.search(r"post-(\d+)", s)`: leftmost occurrence of `post-` followed
by at least one digit; returns the maximal digit run. -/
def searchPostId : List Char → Option String
  | [] => none
  | c :: rest =>
    if List.isPrefixOf "post-".data (c :: rest) ∧
        ((c :: rest).drop 5).takeWhile Char.isDigit ≠ [] then
      some (String.mk (((c :: rest).drop 5).takeWhile Char.isDigit))
    else
      searchPostId rest

/-- Model of `extract_post_id(entry)`. -/
def extract_post_id (entry : Entry) : Option String :=
  searchPostId (entry.id.getD "").data

/-! ## Filesystem state -/

/-- The filesystem: created directories and written files (a later write
shadows an earlier one at the same path, as `open(path, "w")` truncates).
A path is its list of components. -/
structure FS where
  dirs : List (List String)
  files : List (List String × String)
deriving Repr, DecidableEq

def FS.empty : FS := ⟨[], []⟩

/-- Model of `os.makedirs(p, exist_ok=True)`: records the directory; re-creating an
existing directory is a no-op. -/
def FS.makedirs (fs : FS) (p : List String) : FS :=
  if p ∈ fs.dirs then fs else { fs with dirs := p :: fs.dirs }

/-- Model of `open(p, "w").write(c)`: the new content shadows any previous file at
`p`. -/
def FS.writeFile (fs : FS) (p : List String) (c : String) : FS :=
  { fs with files := (p, c) :: fs.files }

/-- The content currently at path `p` (the most recent write wins). -/
def FS.read (fs : FS) (p : List String) : Option String :=
  (fs.files.find? (fun e => e.1 = p)).map (·.2)

/-! ## Content selection and document rendering -/

/-- The content-selection idiom used for both posts and comments:
`if "content" in entry and entry["content"]: entry["content"][0].get("value","")
elif "summary" in entry: entry.get("summary","")` — a present, non-empty
content list wins over the summary; otherwise the content stays `""`. -/
def entryContent (e : Entry) : String :=
  match e.content with
  | some (b :: _) => b.value.getD ""
  | _ =>
    match e.summary with
    | some s => s
    | none => ""

/-- The bytes written to `index.md`: optional `# <title>` heading with a
blank line, the stripped markdown body, a trailing newline. -/
def indexDoc (title : String) (markdown_content : String) : String :=
  (if title ≠ "" then "# " ++ title ++ "\n\n" else "") ++ pyStrip markdown_content ++ "\n"

/-- One comment's contribution to `comments.md`:
`## <author> - <formatted date>`, blank line, stripped rendered markdown,
blank line. -/
def renderComment (env : Env) (comment : Entry) : String :=
  let author := comment.author_name.getD "Anonymous"
  let comment_date := comment.published.getD ""
  let formatted_date := format_comment_date env.fromiso comment_date
  let comment_md := html_to_markdown env.md (entryContent comment)
  "## " ++ author ++ " - " ++ formatted_date ++ "\n\n" ++ pyStrip comment_md ++ "\n\n"

/-- The comment loop of `process_post`: `---` is written after a comment
exactly when it is not the last one (`if i < len(comments) - 1`). -/
def commentsBody (env : Env) : List Entry → String
  | [] => ""
  | [c] => renderComment env c
  | c :: rest => renderComment env c ++ "---\n\n" ++ commentsBody env rest

/-- The bytes written to `comments.md`. -/
def commentsDoc (env : Env) (comments : List Entry) : String :=
  "# Comments\n\n" ++ commentsBody env comments

/-! ## Comment fetching and per-post processing -/

/-- The per-post comment feed URL. -/
def commentFeedUrl (pid : String) : String :=
  "https://theguitarman.blogspot.com/feeds/" ++ pid ++ "/comments/default"

/-- Model of `fetch_comments(post_id)`: also counts the network requests made
(`0` or `1`), to express the no-request-when-absent contract. -/
def fetch_comments (env : Env) (post_id : Option String) : List Entry × Nat :=
  if strTruthy post_id = false then
    ([], 0)
  else
    match env.commentFeed (commentFeedUrl (post_id.getD "")) with
    | .error _ => ([], 1)
    | .ok feed =>
      if feed.bozo && feed.entries.isEmpty then ([], 1) else (feed.entries, 1)

/-- Result of `process_post`: the Python return value (the folder path, or
`None` when the post was skipped), the filesystem, and the lines the call
printed. -/
structure PPResult where
  ret : Option (List String)
  fs : FS
  log : List String
deriving Repr, DecidableEq

/-- Model of `process_post(entry, output_base)`. -/
def process_post (env : Env) (entry : Entry) (output_base : String) (fs : FS) :
    PPResult :=
  let title := pyStrip (entry.title.getD "")
  let published := entry.published.getD ""
  let content := entryContent entry
  match parse_datetime env.fromiso published with
  | none => ⟨none, fs, ["  Skipping post with invalid date: " ++ published]⟩
  | some dt =>
    let folder_name := generate_folder_name env.slug dt title
    let year := strftimeYear dt
    let folder_path := [output_base, year, folder_name]
    let fs := fs.makedirs folder_path
    let markdown_content := html_to_markdown env.md content
    let fs := fs.writeFile (folder_path ++ ["index.md"]) (indexDoc title markdown_content)
    match extract_post_id entry with
    | none => ⟨some folder_path, fs, []⟩
    | some pid =>
      let comments := (fetch_comments env (some pid)).1
      if comments.isEmpty then
        ⟨some folder_path, fs, []⟩
      else
        ⟨some folder_path,
          fs.writeFile (folder_path ++ ["comments.md"]) (commentsDoc env comments), []⟩

/-! ## The orchestrator -/

/-- The per-post `for` loop of `main` with its `try/except`, over an
arbitrary per-post step (the step returns the filesystem as mutated so far
even when it raises, as a real exception would leave it).  Produces the
final filesystem, each post's outcome in feed order, and the printed log. -/
def mainLoop (step : Entry → FS → FS × Except String (Option (List String)))
    (total : Nat) : Nat → List Entry → FS →
    FS × List (Except String (Option (List String))) × List String
  | _, [], fs => (fs, [], [])
  | i, entry :: rest, fs =>
    let progress := "[" ++ toString i ++ "/" ++ toString total ++ "] " ++
      (entry.title.getD "(untitled)").take 50
    let fs' := (step entry fs).1
    let r := (step entry fs).2
    let lines :=
      match r with
      | .error e => [progress, "  Error: " ++ e]
      | .ok (some folder) => [progress, "  -> " ++ String.intercalate "/" folder]
      | .ok none => [progress]
    let res := mainLoop step total (i + 1) rest fs'
    (res.1, r :: res.2.1, lines ++ res.2.2)

def OUTPUT_DIR : String := "posts"

/-- The outcome of one run of `main()`.  `retval` is the Python return
value: `main` returns `None` on every path (there is no returned count). -/
structure RunResult where
  fs : FS
  retval : Option Nat
  results : List (Except String (Option (List String)))
  log : List String
deriving Repr

/-- The loop body `main` wraps in `try/except`: run `process_post`; the
embedded `process_post` is total, so the step always returns `.ok`. -/
def mainStep (env : Env) (e : Entry) (f : FS) :
    FS × Except String (Option (List String)) :=
  let r := process_post env e OUTPUT_DIR f
  (r.fs, Except.ok r.ret)

/-- Model of `main()`: walk the feed; on zero posts exit early with no output;
otherwise create the output root and process every post, catching per-post
failures. -/
def scraperMain (env : Env) (pages : List (FeedPage Entry)) (fs : FS) : RunResult :=
  let posts := (fetch_all_posts pages).1
  if posts.isEmpty then
    { fs := fs, retval := none, results := [], log := ["No posts found. Exiting."] }
  else
    let fs := fs.makedirs [OUTPUT_DIR]
    let res := mainLoop (mainStep env) posts.length 1 posts fs
    { fs := res.1, retval := none, results := res.2.1, log := res.2.2 }

/-! ## C2: per-post failures are contained -/

/-- C2: for every per-post step (however it fails) the orchestrator's loop
produces one outcome per entry, in feed order — an exception in one post is
caught, an error line is logged, and processing continues; nothing
propagates past the per-post boundary. -/
theorem per_post_failure_contained :
    ∀ (step : Entry → FS → FS × Except String (Option (List String)))
      (total i : Nat) (entries : List Entry) (fs : FS),
      ((mainLoop step total i entries fs).2.1).length = entries.length ∧
      (∀ msg, Except.error msg ∈ (mainLoop step total i entries fs).2.1 →
        ("  Error: " ++ msg) ∈ (mainLoop step total i entries fs).2.2) := by
  intro step total i entries fs
  induction entries generalizing i fs with
  | nil => simp [mainLoop]
  | cons e rest ih =>
    obtain ⟨ih1, ih2⟩ := ih (i + 1) (step e fs).1
    constructor
    · simp only [mainLoop, List.length_cons, ih1]
    · intro msg hmem
      simp only [mainLoop, List.mem_cons] at hmem
      rcases hmem with hr | hrest
      · simp only [mainLoop, List.mem_append]
        left
        rw [← hr]
        simp
      · simp only [mainLoop, List.mem_append]
        right
        exact ih2 msg hrest

/-- A step that raises on the first entry and succeeds on the second. -/
def c2Step : Entry → FS → FS × Except String (Option (List String)) :=
  fun e fs => (fs, if e.title = some "bad" then .error "boom" else .ok none)

def c2Entries : List Entry := [{ title := some "bad" }, { title := some "ok" }]

/-- C2 witness: with a step that raises on post 1 of 2, both posts get an
outcome and the error is logged. -/
theorem per_post_failure_contained_witness :
    ((mainLoop c2Step 2 1 c2Entries FS.empty).2.1).length = 2 ∧
    ("  Error: boom") ∈ (mainLoop c2Step 2 1 c2Entries FS.empty).2.2 := by
  refine ⟨(per_post_failure_contained c2Step 2 1 c2Entries FS.empty).1, ?_⟩
  refine (per_post_failure_contained c2Step 2 1 c2Entries FS.empty).2 "boom" ?_
  have h : (mainLoop c2Step 2 1 c2Entries FS.empty).2.1 =
      [Except.error "boom", Except.ok none] := rfl
  rw [h]
  exact List.mem_cons_self _ _

/-! ## C3: unparseable post timestamp -/

/-- C3: a post whose published timestamp fails to parse causes no
filesystem mutation at all — no directory, no file — and `process_post`
returns no output location and reports the skip. -/
theorem unparseable_timestamp_skips (env : Env) (entry : Entry) (base : String)
    (fs : FS) (h : parse_datetime env.fromiso (entry.published.getD "") = none) :
    process_post env entry base fs =
      ⟨none, fs, ["  Skipping post with invalid date: " ++ entry.published.getD ""]⟩ := by
  simp [process_post, h]

/-- C3 witness: a concrete entry with an unparseable date is skipped with
the filesystem untouched. -/
theorem unparseable_timestamp_skips_witness :
    process_post ⟨id, fun _ => none, id, fun _ => .error "down"⟩
        { published := some "not-a-date" } "posts" FS.empty =
      ⟨none, FS.empty, ["  Skipping post with invalid date: not-a-date"]⟩ :=
  unparseable_timestamp_skips _ _ _ _ rfl

/-! ## C5: comment fetching never fails upward -/

/-- C5: `fetch_comments` always returns a list: an absent (falsy) post id
returns empty with zero network requests; a present id makes exactly one
request; a fetch/parse exception or a bozo feed with no entries returns
empty. -/
theorem fetch_comments_total :
    ∀ (env : Env) (pid : Option String),
      (strTruthy pid = false → fetch_comments env pid = ([], 0)) ∧
      ((fetch_comments env pid).2 = if strTruthy pid then 1 else 0) ∧
      (∀ msg, env.commentFeed (commentFeedUrl (pid.getD "")) = .error msg →
        (fetch_comments env pid).1 = []) ∧
      (∀ feed, env.commentFeed (commentFeedUrl (pid.getD "")) = .ok feed →
        (feed.bozo && feed.entries.isEmpty) = true →
        (fetch_comments env pid).1 = []) := by
  intro env pid
  refine ⟨?_, ?_, ?_, ?_⟩
  · intro h
    simp [fetch_comments, h]
  · by_cases h : strTruthy pid = false
    · simp [fetch_comments, h]
    · rw [Bool.not_eq_false] at h
      simp only [fetch_comments, h]
      cases hf : env.commentFeed (commentFeedUrl (pid.getD "")) with
      | error e => simp
      | ok feed =>
        by_cases hb : (feed.bozo && feed.entries.isEmpty) = true <;> simp [hb]
  · intro msg hf
    by_cases h : strTruthy pid = false
    · simp [fetch_comments, h]
    · rw [Bool.not_eq_false] at h
      simp [fetch_comments, h, hf]
  · intro feed hf hb
    by_cases h : strTruthy pid = false
    · simp [fetch_comments, h]
    · rw [Bool.not_eq_false] at h
      simp [fetch_comments, h, hf, hb]

/-- C5 witness: an absent id returns empty with zero requests; with the
network down, a present id returns empty (after its one request). -/
theorem fetch_comments_total_witness :
    fetch_comments ⟨id, fun _ => none, id, fun _ => .error "down"⟩ none = ([], 0) ∧
    (fetch_comments ⟨id, fun _ => none, id, fun _ => .error "down"⟩ (some "123")).1 = [] := by
  constructor
  · exact (fetch_comments_total _ none).1 rfl
  · exact (fetch_comments_total _ (some "123")).2.2.1 "down" rfl

/-! ## C10: comment dates fall back to the raw string -/

/-- C10: a comment whose published timestamp fails to parse is still
rendered in full, its subheading carrying the raw date string verbatim;
a parseable timestamp is rendered as `YYYY-MM-DD HH:MM`. -/
theorem comment_date_fallback :
    ∀ (env : Env) (c : Entry),
      (parse_datetime env.fromiso (c.published.getD "") = none →
        renderComment env c = "## " ++ c.author_name.getD "Anonymous" ++ " - " ++
          c.published.getD "" ++ "\n\n" ++
          pyStrip (html_to_markdown env.md (entryContent c)) ++ "\n\n") ∧
      (∀ dt, parse_datetime env.fromiso (c.published.getD "") = some dt →
        renderComment env c = "## " ++ c.author_name.getD "Anonymous" ++ " - " ++
          strftimeCommentDate dt ++ "\n\n" ++
          pyStrip (html_to_markdown env.md (entryContent c)) ++ "\n\n") := by
  intro env c
  constructor
  · intro h
    simp [renderComment, format_comment_date, h]
  · intro dt h
    simp [renderComment, format_comment_date, h]

/-- C10 witness: with a parser that rejects everything, a comment dated
`"garbage"` renders with `garbage` verbatim in its subheading. -/
theorem comment_date_fallback_witness :
    renderComment ⟨id, fun _ => none, id, fun _ => .error "down"⟩
        { published := some "garbage", author_name := some "Ann",
          summary := some "hi" } =
      "## Ann - garbage\n\nhi\n\n" := by
  have h := (comment_date_fallback ⟨id, fun _ => none, id, fun _ => .error "down"⟩
    { published := some "garbage", author_name := some "Ann",
      summary := some "hi" }).1 rfl
  rw [h]
  decide

/-! ## Helper lemmas about the filesystem and string joining -/

theorem FS.files_makedirs (fs : FS) (d : List String) :
    (fs.makedirs d).files = fs.files := by
  simp only [FS.makedirs]
  split <;> rfl

theorem FS.read_makedirs (fs : FS) (d : List String) (q : List String) :
    FS.read (fs.makedirs d) q = FS.read fs q := by
  simp [FS.read, FS.files_makedirs]

theorem FS.read_writeFile (fs : FS) (p q : List String) (c : String) :
    FS.read (fs.writeFile p c) q = if p = q then some c else FS.read fs q := by
  simp only [FS.read, FS.writeFile, List.find?]
  by_cases h : p = q
  · simp [h]
  · simp [h]

theorem intercalateGoLeft (s : String) (t : List String) :
    ∀ a b : String, String.intercalate.go (a ++ b) s t =
      a ++ String.intercalate.go b s t := by
  induction t with
  | nil => intro a b; rfl
  | cons c t ih =>
    intro a b
    show String.intercalate.go (a ++ b ++ s ++ c) s t = _
    rw [show a ++ b ++ s ++ c = a ++ (b ++ s ++ c) by
      simp [String.append_assoc]]
    exact ih a (b ++ s ++ c)

theorem intercalate_cons_cons (s a b : String) (t : List String) :
    String.intercalate s (a :: b :: t) = a ++ s ++ String.intercalate s (b :: t) := by
  show String.intercalate.go (a ++ s ++ b) s t = a ++ s ++ String.intercalate.go b s t
  exact intercalateGoLeft s t (a ++ s) b

/-- The `i < len(comments) - 1` separator loop is exactly an interleaving of
`---` between the rendered comments. -/
theorem commentsBody_eq (env : Env) : ∀ cs : List Entry,
    commentsBody env cs = String.intercalate "---\n\n" (cs.map (renderComment env)) := by
  intro cs
  induction cs with
  | nil => rfl
  | cons c rest ih =>
    cases rest with
    | nil => rfl
    | cons d rest' =>
      rw [show commentsBody env (c :: d :: rest') =
          renderComment env c ++ "---\n\n" ++ commentsBody env (d :: rest') from rfl,
        ih]
      simp only [List.map_cons]
      rw [intercalate_cons_cons]

/-! ## C4: the Path Resolver -/

/-- The output directory `process_post` resolves for a dated post. -/
def postFolder (env : Env) (entry : Entry) (base : String) (dt : DateTime) :
    List String :=
  [base, strftimeYear dt, generate_folder_name env.slug dt (pyStrip (entry.title.getD ""))]

theorem generate_folder_name_of_nonempty (slug : String → String) (dt : DateTime)
    (title : String) (ht : pyStrip title ≠ "") :
    generate_folder_name slug dt title = strftimeFolderPrefix dt ++ "-" ++ slug title := by
  have hne : title ≠ "" := by
    intro he
    rw [he] at ht
    exact ht rfl
  simp [generate_folder_name, hne, ht]

theorem generate_folder_name_of_empty (slug : String → String) (dt : DateTime)
    (title : String) (ht : pyStrip title = "") :
    generate_folder_name slug dt title = strftimeFolderPrefix dt := by
  by_cases hne : title = ""
  · simp [generate_folder_name, hne]
  · simp [generate_folder_name, hne, ht]

/-- C4: the folder name starts with exactly the `YYYY-MM-DD-HH-MM` rendering
of the timestamp; a non-empty trimmed title appends a hyphen and the
(≤ 50-unit) slug, an empty one leaves the bare date prefix; and the year
partition is the `YYYY` rendering of the same timestamp. -/
theorem path_resolver_correct :
    (∀ (slug : String → String) (dt : DateTime) (title : String),
      (pyStrip title ≠ "" →
        generate_folder_name slug dt title = strftimeFolderPrefix dt ++ "-" ++ slug title) ∧
      (pyStrip title = "" →
        generate_folder_name slug dt title = strftimeFolderPrefix dt) ∧
      ((∀ t, (slug t).length ≤ 50) →
        (generate_folder_name slug dt title).length ≤
          (strftimeFolderPrefix dt).length + 51)) ∧
    (∀ (env : Env) (entry : Entry) (base : String) (fs : FS) (dt : DateTime),
      parse_datetime env.fromiso (entry.published.getD "") = some dt →
      (process_post env entry base fs).ret = some (postFolder env entry base dt)) := by
  constructor
  · intro slug dt title
    refine ⟨generate_folder_name_of_nonempty slug dt title,
      generate_folder_name_of_empty slug dt title, ?_⟩
    intro hcap
    by_cases ht : pyStrip title = ""
    · rw [generate_folder_name_of_empty slug dt title ht]
      exact Nat.le_add_right _ _
    · rw [generate_folder_name_of_nonempty slug dt title ht,
        String.length_append, String.length_append]
      have h50 := hcap title
      have h1 : ("-" : String).length = 1 := rfl
      omega
  · intro env entry base fs dt h
    simp only [process_post, h, postFolder]
    cases hx : extract_post_id entry with
    | none => simp
    | some pid =>
      by_cases hc : ((fetch_comments env (some pid)).1).isEmpty <;> simp [hc]

/-- C4 witness: with a constant slug of length 1, a non-blank title appends
`-x` to the date prefix, a blank title leaves the bare prefix, the length
bound holds, and `process_post` resolves `<base>/<YYYY>/<folder>`. -/
theorem path_resolver_correct_witness :
    generate_folder_name (fun _ => "x") ⟨2024, 1, 2, 3, 4⟩ "My Post" =
      "2024-01-02-03-04-x" ∧
    generate_folder_name (fun _ => "x") ⟨2024, 1, 2, 3, 4⟩ "   " =
      "2024-01-02-03-04" ∧
    (generate_folder_name (fun _ => "x") ⟨2024, 1, 2, 3, 4⟩ "My Post").length ≤
      "2024-01-02-03-04".length + 51 ∧
    (process_post ⟨id, fun _ => some ⟨2024, 1, 2, 3, 4⟩, fun _ => "x",
        fun _ => .error "down"⟩
      { title := some "My Post", published := some "2024-01-02T03:04:00" }
      "posts" FS.empty).ret = some ["posts", "2024", "2024-01-02-03-04-x"] := by
  refine ⟨?_, ?_, ?_, ?_⟩
  · rw [(path_resolver_correct.1 (fun _ => "x") ⟨2024, 1, 2, 3, 4⟩ "My Post").1
      (by decide)]
    decide
  · rw [(path_resolver_correct.1 (fun _ => "x") ⟨2024, 1, 2, 3, 4⟩ "   ").2.1
      (by decide)]
    decide
  · have h := (path_resolver_correct.1 (fun _ => "x") ⟨2024, 1, 2, 3, 4⟩ "My Post").2.2
      (fun t => by decide)
    have he : (strftimeFolderPrefix ⟨2024, 1, 2, 3, 4⟩).length =
        "2024-01-02-03-04".length := by decide
    omega
  · rw [path_resolver_correct.2 ⟨id, fun _ => some ⟨2024, 1, 2, 3, 4⟩, fun _ => "x",
        fun _ => .error "down"⟩
      { title := some "My Post", published := some "2024-01-02T03:04:00" }
      "posts" FS.empty ⟨2024, 1, 2, 3, 4⟩ rfl]
    decide

/-! ## C6: the comments document -/

/-- The comment-rendering lambda written out is exactly `renderComment`. -/
theorem renderComment_expand (env : Env) :
    (fun c => "## " ++ c.author_name.getD "Anonymous" ++ " - " ++
      format_comment_date env.fromiso (c.published.getD "") ++ "\n\n" ++
      pyStrip (html_to_markdown env.md (entryContent c)) ++ "\n\n") =
    renderComment env := rfl

/-- C6: with at least one fetched comment, `comments.md` is written and is a
`# Comments` heading followed by `## <author> - <date>` blocks (author
defaulting to `Anonymous`) in fetch order, `---`-separated between but not
after; with zero fetched comments (or no post id) no comments document is
written. -/
theorem comments_doc_correct :
    ∀ (env : Env) (entry : Entry) (base : String) (fs : FS) (dt : DateTime),
      parse_datetime env.fromiso (entry.published.getD "") = some dt →
      (∀ pid, extract_post_id entry = some pid →
        (fetch_comments env (some pid)).1 ≠ [] →
        FS.read (process_post env entry base fs).fs
            (postFolder env entry base dt ++ ["comments.md"]) =
          some ("# Comments\n\n" ++ String.intercalate "---\n\n"
            (((fetch_comments env (some pid)).1).map (fun c =>
              "## " ++ c.author_name.getD "Anonymous" ++ " - " ++
              format_comment_date env.fromiso (c.published.getD "") ++ "\n\n" ++
              pyStrip (html_to_markdown env.md (entryContent c)) ++ "\n\n")))) ∧
      (∀ pid, extract_post_id entry = some pid →
        (fetch_comments env (some pid)).1 = [] →
        FS.read (process_post env entry base fs).fs
            (postFolder env entry base dt ++ ["comments.md"]) =
          FS.read fs (postFolder env entry base dt ++ ["comments.md"])) ∧
      (extract_post_id entry = none →
        FS.read (process_post env entry base fs).fs
            (postFolder env entry base dt ++ ["comments.md"]) =
          FS.read fs (postFolder env entry base dt ++ ["comments.md"])) := by
  intro env entry base fs dt h
  refine ⟨?_, ?_, ?_⟩
  · intro pid hx hne
    cases hcs : (fetch_comments env (some pid)).1 with
    | nil => exact absurd hcs hne
    | cons c cs =>
      simp only [process_post, h, hx, hcs, List.isEmpty_cons, Bool.false_eq_true,
        if_false, postFolder]
      rw [FS.read_writeFile]
      simp only [if_pos rfl, Option.some_inj]
      rw [commentsDoc, commentsBody_eq, renderComment_expand]
      simp
  · intro pid hx hcs
    simp only [process_post, h, hx, hcs, List.isEmpty_nil, if_true, postFolder]
    rw [FS.read_writeFile, if_neg (by simp), FS.read_makedirs]
  · intro hx
    simp only [process_post, h, hx, postFolder]
    rw [FS.read_writeFile, if_neg (by simp), FS.read_makedirs]

/-- A concrete environment: identity markdown converter, a parser accepting
one fixed date, a constant slug, and a comment feed serving two comments
(the second with no author and an unparseable date). -/
def c6Env : Env where
  md := id
  fromiso := fun s =>
    if s = "2024-01-02T03:04:00" then some ⟨2024, 1, 2, 3, 4⟩ else none
  slug := fun _ => "hello"
  commentFeed := fun _ => .ok ⟨false,
    [ { author_name := some "Alice", published := some "2024-01-02T03:04:00",
        summary := some "First!" },
      { published := some "xyz", summary := some "Second" } ], []⟩

def c6Post : Entry :=
  { id := some "tag:blogger.com,1999:blog-7.post-123", title := some "Hello",
    published := some "2024-01-02T03:04:00", summary := some "<p>Hi</p>" }

/-- C6 witness: a post with two comments gets a `comments.md` with two `##`
headings, one `---` separator between them and none after, and the missing
author rendered as `Anonymous`. -/
theorem comments_doc_correct_witness :
    FS.read (process_post c6Env c6Post "posts" FS.empty).fs
        ["posts", "2024", "2024-01-02-03-04-hello", "comments.md"] =
      some ("# Comments\n\n## Alice - 2024-01-02 03:04\n\nFirst!\n\n---\n\n" ++
        "## Anonymous - xyz\n\nSecond\n\n") := by
  have h := (comments_doc_correct c6Env c6Post "posts" FS.empty ⟨2024, 1, 2, 3, 4⟩
    (by decide)).1 "123" (by decide) (by decide)
  rw [show postFolder c6Env c6Post "posts" ⟨2024, 1, 2, 3, 4⟩ ++ ["comments.md"] =
    ["posts", "2024", "2024-01-02-03-04-hello", "comments.md"] from by decide] at h
  exact h.trans (by decide)

/-! ## C7: content selection and the post document -/

/-- C7: a present, non-empty structured content list wins over the summary;
otherwise the summary (or `""`) is used; empty HTML renders to `""`; and
`index.md` is an optional `# <title>` heading plus blank line, the trimmed
rendered body, and a single trailing newline. -/
theorem content_renderer_correct :
    ∀ (env : Env) (e : Entry),
      (∀ b bs, e.content = some (b :: bs) → entryContent e = b.value.getD "") ∧
      ((e.content = none ∨ e.content = some []) → entryContent e = e.summary.getD "") ∧
      (html_to_markdown env.md "" = "") ∧
      (∀ (base : String) (fs : FS) (dt : DateTime),
        parse_datetime env.fromiso (e.published.getD "") = some dt →
        FS.read (process_post env e base fs).fs (postFolder env e base dt ++ ["index.md"]) =
          some ((if pyStrip (e.title.getD "") ≠ "" then
              "# " ++ pyStrip (e.title.getD "") ++ "\n\n" else "") ++
            pyStrip (html_to_markdown env.md (entryContent e)) ++ "\n")) := by
  intro env e
  refine ⟨?_, ?_, ?_, ?_⟩
  · intro b bs hb
    simp [entryContent, hb]
  · intro hb
    rcases hb with hb | hb <;> cases hs : e.summary <;> simp [entryContent, hb, hs]
  · rfl
  · intro base fs dt h
    cases hx : extract_post_id e with
    | none =>
      simp only [process_post, h, hx, postFolder]
      rw [FS.read_writeFile, if_pos rfl]
      rfl
    | some pid =>
      cases hcs : (fetch_comments env (some pid)).1 with
      | nil =>
        simp only [process_post, h, hx, hcs, List.isEmpty_nil, if_true, postFolder]
        rw [FS.read_writeFile, if_pos rfl]
        rfl
      | cons c cs =>
        simp only [process_post, h, hx, hcs, List.isEmpty_cons, Bool.false_eq_true,
          if_false, postFolder]
        rw [FS.read_writeFile, if_neg (by simp), FS.read_writeFile, if_pos rfl]
        rfl

def c7Post : Entry :=
  { title := some "Hello", published := some "2024-01-02T03:04:00",
    content := some [⟨some "<p>Hi</p>"⟩], summary := some "IGNORED" }

/-- C7 witness: the content block is preferred over the summary, empty HTML
renders empty, and `index.md` carries the `# Hello` heading, the body and a
trailing newline. -/
theorem content_renderer_correct_witness :
    entryContent c7Post = "<p>Hi</p>" ∧
    html_to_markdown c6Env.md "" = "" ∧
    FS.read (process_post c6Env c7Post "posts" FS.empty).fs
        ["posts", "2024", "2024-01-02-03-04-hello", "index.md"] =
      some "# Hello\n\n<p>Hi</p>\n" := by
  refine ⟨(content_renderer_correct c6Env c7Post).1 ⟨some "<p>Hi</p>"⟩ [] rfl, 
    (content_renderer_correct c6Env c7Post).2.2.1, ?_⟩
  have h := (content_renderer_correct c6Env c7Post).2.2.2 "posts" FS.empty
    ⟨2024, 1, 2, 3, 4⟩ (by decide)
  rw [show postFolder c6Env c7Post "posts" ⟨2024, 1, 2, 3, 4⟩ ++ ["index.md"] =
    ["posts", "2024", "2024-01-02-03-04-hello", "index.md"] from by decide] at h
  exact h.trans (by decide)

/-! ## C8: what `main()` returns -/

/-- C8 (amended): `main()` returns `None` on every path — it does not return
the count of successfully written posts — and when the Pagination Walker
yields zero entries it terminates successfully with zero output: the
filesystem is untouched and only the informational message is printed. -/
theorem run_returns_none :
    ∀ (env : Env) (pages : List (FeedPage Entry)) (fs : FS),
      (scraperMain env pages fs).retval = none ∧
      ((fetch_all_posts pages).1 = [] →
        scraperMain env pages fs =
          { fs := fs, retval := none, results := [],
            log := ["No posts found. Exiting."] }) := by
  intro env pages fs
  constructor
  · simp only [scraperMain]
    split <;> rfl
  · intro h
    simp [scraperMain, h]

/-- C8 witness: on an empty feed the run ends with `None`, an untouched
filesystem and only the informational message. -/
theorem run_returns_none_witness :
    (scraperMain c6Env [] FS.empty).retval = none ∧
    scraperMain c6Env [] FS.empty =
      { fs := FS.empty, retval := none, results := [],
        log := ["No posts found. Exiting."] } :=
  ⟨(run_returns_none c6Env [] FS.empty).1, (run_returns_none c6Env [] FS.empty).2 rfl⟩

def c8Pages : List (FeedPage Entry) := [⟨false, [c7Post], []⟩]

/-- C8 counterexample to the claim as stated: on a one-post feed the post is
successfully written (its outcome is `ok` with a folder), so "the count of
successfully written posts" is 1, yet the run's return value is `None`,
not 1. -/
theorem run_count_counterexample :
    (scraperMain c6Env c8Pages FS.empty).results =
      [Except.ok (some ["posts", "2024", "2024-01-02-03-04-hello"])] ∧
    (scraperMain c6Env c8Pages FS.empty).retval = none ∧
    (scraperMain c6Env c8Pages FS.empty).retval ≠ some 1 := by
  refine ⟨rfl, rfl, ?_⟩
  rw [show (scraperMain c6Env c8Pages FS.empty).retval = none from rfl]
  simp

/-! ## C9: idempotence of a rerun -/

/-- The file writes `process_post` performs (newest first), which depend
only on the entry and the environment — never on the prior filesystem. -/
def ppFiles (env : Env) (e : Entry) (base : String) : List (List String × String) :=
  match parse_datetime env.fromiso (e.published.getD "") with
  | none => []
  | some dt =>
    let folder := postFolder env e base dt
    let idx := (folder ++ ["index.md"],
      indexDoc (pyStrip (e.title.getD "")) (html_to_markdown env.md (entryContent e)))
    match extract_post_id e with
    | none => [idx]
    | some pid =>
      let cs := (fetch_comments env (some pid)).1
      if cs.isEmpty then [idx]
      else (folder ++ ["comments.md"], commentsDoc env cs) :: [idx]

theorem process_post_files (env : Env) (e : Entry) (base : String) (fs : FS) :
    (process_post env e base fs).fs.files = ppFiles env e base ++ fs.files := by
  cases h : parse_datetime env.fromiso (e.published.getD "") with
  | none => simp [process_post, ppFiles, h]
  | some dt =>
    cases hx : extract_post_id e with
    | none =>
      simp [process_post, ppFiles, h, hx, FS.writeFile, FS.files_makedirs, postFolder]
    | some pid =>
      cases hcs : (fetch_comments env (some pid)).1 with
      | nil =>
        simp [process_post, ppFiles, h, hx, hcs, FS.writeFile, FS.files_makedirs,
          postFolder]
      | cons c cs =>
        simp [process_post, ppFiles, h, hx, hcs, FS.writeFile, FS.files_makedirs,
          postFolder]

/-- All file writes of one run over a list of posts (newest first). -/
def runFiles (env : Env) : List Entry → List (List String × String)
  | [] => []
  | e :: rest => runFiles env rest ++ ppFiles env e OUTPUT_DIR

theorem mainLoop_files (env : Env) (total : Nat) :
    ∀ (entries : List Entry) (i : Nat) (fs : FS),
      (mainLoop (mainStep env) total i entries fs).1.files =
        runFiles env entries ++ fs.files := by
  intro entries
  induction entries with
  | nil => intro i fs; simp [mainLoop, runFiles]
  | cons e rest ih =>
    intro i fs
    simp only [mainLoop]
    rw [ih (i + 1) (mainStep env e fs).1,
      show (mainStep env e fs).1 = (process_post env e OUTPUT_DIR fs).fs from rfl,
      process_post_files]
    simp [runFiles, List.append_assoc]

theorem scraperMain_files (env : Env) (pages : List (FeedPage Entry)) (fs : FS)
    (h : (fetch_all_posts pages).1 ≠ []) :
    (scraperMain env pages fs).fs.files =
      runFiles env (fetch_all_posts pages).1 ++ fs.files := by
  have hie : ((fetch_all_posts pages).1).isEmpty = false := by
    cases hc : (fetch_all_posts pages).1 with
    | nil => exact absurd hc h
    | cons a l => rfl
  simp only [scraperMain, hie, Bool.false_eq_true, if_false]
  rw [mainLoop_files, FS.files_makedirs]

/-- C9: a second run against an unchanged feed leaves every file's bytes
exactly as the first run left them (each document is a whole-file overwrite
determined by the feed alone, never an append). -/
theorem run_idempotent :
    (∀ (env : Env) (pages : List (FeedPage Entry)) (fs : FS) (p : List String),
      FS.read (scraperMain env pages (scraperMain env pages fs).fs).fs p =
        FS.read (scraperMain env pages fs).fs p) ∧
    (∀ (fs : FS) (p : List String) (c₀ c : String),
      FS.read ((fs.writeFile p c₀).writeFile p c) p = some c) := by
  constructor
  · intro env pages fs p
    by_cases h : (fetch_all_posts pages).1 = []
    · simp [scraperMain, h]
    · have h1 := scraperMain_files env pages fs h
      have h2 := scraperMain_files env pages (scraperMain env pages fs).fs h
      simp only [FS.read, h1, h2, List.find?_append]
      cases hW : List.find? (fun e => e.1 = p)
          (runFiles env (fetch_all_posts pages).1) <;> simp [hW]
  · intro fs p c₀ c
    rw [FS.read_writeFile, if_pos rfl]
